import Mathlib

/-!
Verification development for the AI task-analysis pipeline of the
`ai-task-manager` repository (src/aiService.ts).

The TypeScript source is shallowly embedded: JavaScript dynamic values are
modelled by the inductive type `JsVal`, JS numbers by `ℚ`, strings by
`List Char`, thrown exceptions by `Except`, and the external collaborators
(OpenAI client, Redis cache, the `natural` sentiment library) by explicit
environment records enumerating their observable behaviours.
-/

/-- Left bracket brace character, written via its code point. -/
def lbrace : Char := '\x7b'

/-- Right bracket brace character, written via its code point. -/
def rbrace : Char := '\x7d'

/-- Model of a JavaScript/JSON dynamic value.  `undefined` stands for
the JavaScript undefined value (absent object fields).  Numbers are modelled as rationals. -/
inductive JsVal where
  | undefined : JsVal
  | null : JsVal
  | bool (b : Bool) : JsVal
  | num (q : ℚ) : JsVal
  | str (s : List Char) : JsVal
  | arr (l : List JsVal) : JsVal
  | obj (fields : List (List Char × JsVal)) : JsVal

/-- Does the list `s` start with the pattern `p`? -/
def listStartsWith : List Char → List Char → Bool
  | [], _ => true
  | _ :: _, [] => false
  | p :: ps, c :: cs => (p = c) && listStartsWith ps cs

/-- Does the list `s` contain the pattern `p` as a contiguous run?
Models JavaScript `String.prototype.includes`. -/
def hasSub (p : List Char) : List Char → Bool
  | [] => listStartsWith p []
  | c :: cs => listStartsWith p (c :: cs) || hasSub p cs

/-- JSON whitespace characters. -/
def isJsonWs (c : Char) : Bool :=
  c = ' ' || c = '\n' || c = '\t' || c = '\r'

/-- Drop leading JSON whitespace. -/
def skipWs : List Char → List Char
  | [] => []
  | c :: cs => if isJsonWs c then skipWs cs else c :: cs

/-- Numeric value of a decimal digit list (most significant first). -/
def digitsToNat (ds : List Char) : ℕ :=
  ds.foldl (fun a c => a * 10 + (c.toNat - 48)) 0

/-- Map a JSON escape character to the character it denotes. -/
def escMap (c : Char) : Option Char :=
  if c = '"' then some '"'
  else if c = '\\' then some '\\'
  else if c = '/' then some '/'
  else if c = 'b' then some '\x08'
  else if c = 'f' then some '\x0c'
  else if c = 'n' then some '\n'
  else if c = 'r' then some '\r'
  else if c = 't' then some '\t'
  else none

/-- Value of a hexadecimal digit. -/
def hexVal (c : Char) : Option ℕ :=
  if '0' ≤ c ∧ c ≤ '9' then some (c.toNat - 48)
  else if 'a' ≤ c ∧ c ≤ 'f' then some (c.toNat - 87)
  else if 'A' ≤ c ∧ c ≤ 'F' then some (c.toNat - 55)
  else none

/-- Parse the body of a JSON string literal (the opening quote already
consumed), returning the decoded characters and the rest of the input. -/
def parseStrBody : ℕ → List Char → Option (List Char × List Char)
  | 0, _ => none
  | _ + 1, [] => none
  | fuel + 1, c :: cs =>
    if c = '"' then some ([], cs)
    else if c = '\\' then
      match cs with
      | [] => none
      | e :: cs2 =>
        if e = 'u' then
          match cs2 with
          | h1 :: h2 :: h3 :: h4 :: cs3 =>
            match hexVal h1, hexVal h2, hexVal h3, hexVal h4 with
            | some a, some b, some c', some d =>
              match parseStrBody fuel cs3 with
              | some (tail, rest) =>
                some ((Char.ofNat (((a * 16 + b) * 16 + c') * 16 + d)) :: tail, rest)
              | none => none
            | _, _, _, _ => none
          | _ => none
        else
          match escMap e with
          | some d =>
            match parseStrBody fuel cs2 with
            | some (tail, rest) => some (d :: tail, rest)
            | none => none
          | none => none
    else
      match parseStrBody fuel cs with
      | some (tail, rest) => some (c :: tail, rest)
      | none => none

/-- Ten to a natural power, as a rational (kernel-computable). -/
def pow10 (n : ℕ) : ℚ := ((10 ^ n : ℕ) : ℚ)

/-- Parse an optional exponent part of a JSON number and scale the value. -/
def parseExpPart (q : ℚ) (t : List Char) : Option (ℚ × List Char) :=
  match t with
  | e :: t1 =>
    if e = 'e' ∨ e = 'E' then
      let (eneg, t2) : Bool × List Char :=
        match t1 with
        | '-' :: r => (true, r)
        | '+' :: r => (false, r)
        | _ => (false, t1)
      let (ep, t3) := t2.span Char.isDigit
      if ep = [] then none
      else some ((if eneg then q / pow10 (digitsToNat ep) else q * pow10 (digitsToNat ep)), t3)
    else some (q, t)
  | [] => some (q, t)

/-- Parse a JSON number literal (JSON grammar: optional minus, integer part
with no leading zeros, optional fraction, optional exponent). -/
def parseNumLit (t : List Char) : Option (ℚ × List Char) :=
  let (neg, t1) : Bool × List Char :=
    match t with
    | '-' :: r => (true, r)
    | _ => (false, t)
  match t1 with
  | [] => none
  | c :: rest =>
    if ¬ c.isDigit then none
    else
      let (ip, t2) : List Char × List Char :=
        if c = '0' then ([c], rest) else t1.span Char.isDigit
      let base : ℚ := (digitsToNat ip : ℚ)
      let withFrac : Option (ℚ × List Char) :=
        match t2 with
        | '.' :: t3 =>
          let (fp, t4) := t3.span Char.isDigit
          if fp = [] then none
          else some (base + (digitsToNat fp : ℚ) / pow10 fp.length, t4)
        | _ => some (base, t2)
      match withFrac with
      | none => none
      | some (q, t5) =>
        match parseExpPart q t5 with
        | none => none
        | some (q2, t6) => some (if neg then -q2 else q2, t6)

mutual

/-- Parse one JSON value from the input (fuelled recursive descent).
Models the grammar accepted by JavaScript `JSON.parse`. -/
def parseVal : ℕ → List Char → Option (JsVal × List Char)
  | 0, _ => none
  | fuel + 1, s =>
    let t := skipWs s
    if listStartsWith (['n', 'u', 'l', 'l']) t then some (.null, t.drop 4)
    else if listStartsWith (['t', 'r', 'u', 'e']) t then some (.bool true, t.drop 4)
    else if listStartsWith (['f', 'a', 'l', 's', 'e']) t then some (.bool false, t.drop 5)
    else
      match t with
      | [] => none
      | c :: cs =>
        if c = '"' then
          match parseStrBody (cs.length + 1) cs with
          | some (body, rest) => some (.str body, rest)
          | none => none
        else if c = '[' then
          match skipWs cs with
          | ']' :: rest => some (.arr [], rest)
          | t2 => match parseItems fuel t2 with
            | some (items, rest) => some (.arr items, rest)
            | none => none
        else if c = lbrace then
          match skipWs cs with
          | d :: rest =>
            if d = rbrace then some (.obj [], rest)
            else
              match parseMembers fuel (d :: rest) with
              | some (fields, rest2) => some (.obj fields, rest2)
              | none => none
          | [] => none
        else
          match parseNumLit t with
          | some (q, rest) => some (.num q, rest)
          | none => none

/-- Parse the comma separated items of a JSON array, consuming the
closing square bracket. -/
def parseItems : ℕ → List Char → Option (List JsVal × List Char)
  | 0, _ => none
  | fuel + 1, s =>
    match parseVal fuel s with
    | none => none
    | some (v, rest) =>
      match skipWs rest with
      | ',' :: rest2 =>
        match parseItems fuel rest2 with
        | some (vs, rest3) => some (v :: vs, rest3)
        | none => none
      | ']' :: rest2 => some ([v], rest2)
      | _ => none

/-- Parse the comma separated members of a JSON object, consuming the
closing brace. -/
def parseMembers : ℕ → List Char → Option (List (List Char × JsVal) × List Char)
  | 0, _ => none
  | fuel + 1, s =>
    match skipWs s with
    | '"' :: cs =>
      match parseStrBody (cs.length + 1) cs with
      | none => none
      | some (key, rest) =>
        match skipWs rest with
        | ':' :: rest2 =>
          match parseVal fuel rest2 with
          | none => none
          | some (v, rest3) =>
            match skipWs rest3 with
            | ',' :: rest4 =>
              match parseMembers fuel rest4 with
              | some (fs, rest5) => some ((key, v) :: fs, rest5)
              | none => none
            | d :: rest4 =>
              if d = rbrace then some ([(key, v)], rest4) else none
            | [] => none
        | _ => none
    | _ => none

end

/-- Model of JavaScript `JSON.parse`: parse a complete JSON document,
rejecting trailing garbage. -/
def jsonParse (s : List Char) : Option JsVal :=
  match parseVal (4 * s.length + 16) s with
  | some (v, rest) => if skipWs rest = [] then some v else none
  | none => none

/-- JavaScript truthiness test (falsy values).  `NaN` cannot occur among
parsed JSON values, so it has no constructor here. -/
def jsFalsy : JsVal → Bool
  | .undefined => true
  | .null => true
  | .bool b => !b
  | .num q => q = 0
  | .str s => s = []
  | .arr _ => false
  | .obj _ => false

/-- Model of JavaScript `Number()` coercion of a string: optional
whitespace trimming, empty string is `0`, optional sign, decimal literal
with optional fraction and exponent.  `none` stands for `NaN`.
Exotic forms (hex, `Infinity`) are not modelled; they never reach a
successful range check in `validateRange` either way. -/
def strToNum (s : List Char) : Option ℚ :=
  let t := ((s.dropWhile isJsonWs).reverse.dropWhile isJsonWs).reverse
  if t = [] then some 0
  else
    let (neg, t1) : Bool × List Char :=
      match t with
      | '-' :: r => (true, r)
      | '+' :: r => (false, r)
      | _ => (false, t)
    match t1 with
    | [] => none
    | c :: _ =>
      if ¬ (c.isDigit ∨ c = '.') then none
      else
        let (ip, t2) := t1.span Char.isDigit
        let withFrac : Option (ℚ × List Char) :=
          match t2 with
          | '.' :: t3 =>
            let (fp, t4) := t3.span Char.isDigit
            if ip = [] ∧ fp = [] then none
            else some ((digitsToNat ip : ℚ) + (digitsToNat fp : ℚ) / pow10 fp.length, t4)
          | _ => if ip = [] then none else some ((digitsToNat ip : ℚ), t2)
        match withFrac with
        | none => none
        | some (q, t5) =>
          match parseExpPart q t5 with
          | none => none
          | some (q2, t6) => if t6 = [] then some (if neg then -q2 else q2) else none

/-- Model of JavaScript `Number()` coercion.  `none` stands for `NaN`.
Array coercion goes through string join; empty and singleton arrays are
modelled, longer arrays coerce to `NaN` as in JavaScript for numeric
content. -/
def jsToNum : JsVal → Option ℚ
  | .undefined => none
  | .null => some 0
  | .bool b => some (if b then 1 else 0)
  | .num q => some q
  | .str s => strToNum s
  | .arr [] => some 0
  | .arr [v] => jsToNum v
  | .arr (_ :: _ :: _) => none
  | .obj _ => none

/-- Model of JavaScript `Math.round`: round half toward positive
infinity. -/
def jsRound (q : ℚ) : ℤ := ⌊q + 1 / 2⌋

/-- Embeds `AIService.validateRange`: coerce to number; if `NaN` or out of
`[min, max]`, substitute the default; otherwise round to one decimal. -/
def validateRange (value : JsVal) (min max default : ℚ) : ℚ :=
  match jsToNum value with
  | none => default
  | some num => if num < min ∨ max < num then default else (jsRound (num * 10) : ℚ) / 10

/-- The `complexity` enum of a `TaskAnalysis`. -/
inductive Complexity where
  | low : Complexity
  | medium : Complexity
  | high : Complexity
  deriving DecidableEq

/-- The `sentiment` enum of a `TaskAnalysis`. -/
inductive Sentiment where
  | positive : Sentiment
  | negative : Sentiment
  | neutral : Sentiment
  deriving DecidableEq

/-- The `optimalTimeSlot` enum of a `TaskAnalysis`. -/
inductive TimeSlot where
  | morning : TimeSlot
  | afternoon : TimeSlot
  | evening : TimeSlot
  | flexible : TimeSlot
  deriving DecidableEq

/-- Embeds `AIService.validateComplexity`: membership test against the
fixed allowed set with default `medium`. -/
def validateComplexity : JsVal → Complexity
  | .str s =>
    if s = ("low").toList then .low
    else if s = ("medium").toList then .medium
    else if s = ("high").toList then .high
    else .medium
  | _ => .medium

/-- Embeds `AIService.validateTimeSlot`: membership test against the fixed
allowed set with default `flexible`. -/
def validateTimeSlot : JsVal → TimeSlot
  | .str s =>
    if s = ("morning").toList then .morning
    else if s = ("afternoon").toList then .afternoon
    else if s = ("evening").toList then .evening
    else if s = ("flexible").toList then .flexible
    else .flexible
  | _ => .flexible

/-- The `TaskAnalysis` record produced by the pipeline.  Numeric fields are
rationals; range constraints are stated as theorems, not in the type, so a
cached value can carry arbitrary numbers exactly as in the source. -/
structure TaskAnalysis where
  priority : ℚ
  estimatedHours : ℚ
  complexity : Complexity
  sentiment : Sentiment
  tags : List JsVal
  deadlineUrgency : ℚ
  suggestedSubtasks : List JsVal
  optimalTimeSlot : TimeSlot
  confidenceScore : ℚ

/-- The `Array.isArray(v) ? v.slice(0, n) : []` idiom of the source:
truncate an array value to `n` elements, anything else becomes empty. -/
def arrTake (v : JsVal) (n : ℕ) : List JsVal :=
  match v with
  | .arr l => l.take n
  | _ => []

/-- Field lookup on a parsed JSON value, as JavaScript property access:
`undefined` on a non-object or a missing key; for duplicate keys
`JSON.parse` keeps the last occurrence. -/
def rawGet (j : JsVal) (key : List Char) : JsVal :=
  match j with
  | .obj fields =>
    match (fields.reverse).find? (fun f => f.1 = key) with
    | some f => f.2
    | none => .undefined
  | _ => .undefined

/-- Embeds `AIService.calculateConfidenceScore`: base 85, deductions for
missing or invalid raw fields, clamped to `[60, 99]`. -/
def calculateConfidenceScore (analysis : JsVal) : ℚ :=
  let s1 : ℚ := 85
  let s2 := if jsFalsy (rawGet analysis (("priority").toList)) then s1 - 10 else s1
  let s3 := if jsFalsy (rawGet analysis (("estimatedHours").toList)) then s2 - 10 else s2
  let s4 :=
    match rawGet analysis (("tags").toList) with
    | .arr [] => s3 - 5
    | .arr (_ :: _) => s3
    | _ => s3 - 5
  let s5 :=
    match rawGet analysis (("suggestedSubtasks").toList) with
    | .arr _ => s4
    | _ => s4 - 5
  max (min s5 99) 60

/-- Lowercase a character list, modelling `String.prototype.toLowerCase`
on the ASCII range. -/
def toLowerList (s : List Char) : List Char := s.map Char.toLower

/-- The urgency keyword set of `AIService.fallbackAnalysis`. -/
def urgentKeywords : List (List Char) :=
  [("urgent").toList, ("asap").toList, ("immediately").toList,
   ("critical").toList, ("emergency").toList, ("deadline").toList]

/-- The complexity keyword set of `AIService.fallbackAnalysis`. -/
def complexKeywords : List (List Char) :=
  [("refactor").toList, ("architecture").toList, ("design").toList,
   ("research").toList, ("analysis").toList, ("integration").toList]

/-- The lowercased combined text `title + ' ' + description` that
`AIService.fallbackAnalysis` scans for keywords. -/
def fallbackText (title description : List Char) : List Char :=
  toLowerList (title ++ (' ' :: description))

/-- Urgency flag of the heuristic fallback: some urgency keyword occurs as
a substring of the combined text. -/
def isUrgent (text : List Char) : Bool :=
  urgentKeywords.any (fun k => hasSub k text)

/-- Complexity flag of the heuristic fallback: some complexity keyword
occurs as a substring of the combined text. -/
def isComplex (text : List Char) : Bool :=
  complexKeywords.any (fun k => hasSub k text)

/-- The stop-word list of `AIService.extractKeywords`. -/
def stopWords : List (List Char) :=
  [("the").toList, ("and").toList, ("but").toList, ("for").toList, ("are").toList,
   ("you").toList, ("all").toList, ("can").toList, ("had").toList, ("her").toList,
   ("was").toList, ("one").toList, ("our").toList, ("out").toList, ("day").toList,
   ("get").toList, ("has").toList, ("him").toList, ("his").toList, ("how").toList,
   ("its").toList, ("may").toList, ("new").toList, ("now").toList, ("old").toList,
   ("see").toList, ("two").toList, ("way").toList, ("who").toList, ("boy").toList,
   ("did").toList, ("man").toList, ("use").toList, ("what").toList, ("with").toList,
   ("have").toList, ("from").toList, ("they").toList, ("know").toList, ("want").toList,
   ("been").toList, ("good").toList, ("much").toList, ("some").toList, ("time").toList,
   ("very").toList, ("when").toList, ("come").toList, ("here").toList, ("just").toList,
   ("like").toList, ("long").toList, ("make").toList, ("many").toList, ("over").toList,
   ("such").toList, ("take").toList, ("than").toList, ("them").toList, ("well").toList,
   ("were").toList]

/-- Worker for `wsSplit`: accumulate the current token (reversed) and cut
at whitespace. -/
def wsSplitGo : List Char → List Char → List (List Char)
  | [], acc => if acc = [] then [] else [acc.reverse]
  | c :: cs, acc =>
    if isJsonWs c then
      if acc = [] then wsSplitGo cs [] else acc.reverse :: wsSplitGo cs []
    else wsSplitGo cs (c :: acc)

/-- Split a character list on whitespace runs, dropping empty tokens
(models `text.split(/\s+/)` up to the empty leading token, which the
length filter removes in either reading). -/
def wsSplit (s : List Char) : List (List Char) :=
  wsSplitGo s []

/-- Deduplicate preserving first-seen order, modelling `[...new Set(w)]`. -/
def firstDedup (l : List (List Char)) : List (List Char) :=
  l.foldl (fun acc x => if x ∈ acc then acc else acc ++ [x]) []

/-- Embeds `AIService.extractKeywords`: split on whitespace, keep tokens
longer than 3 characters that are not stop words (the stop-word regex is
case-insensitive; the input text is already lowercased by the caller),
deduplicate preserving order, take the first 5. -/
def extractKeywords (text : List Char) : List (List Char) :=
  (firstDedup (((wsSplit text).filter (fun w => 3 < w.length)).filter
    (fun w => ¬ (toLowerList w ∈ stopWords)))).take 5

/-- Embeds `AIService.fallbackAnalysis`: the keyword-driven heuristic
analysis used whenever the remote pipeline is unavailable or fails. -/
def fallbackAnalysis (title description : List Char) : TaskAnalysis :=
  let text := fallbackText title description
  let u := isUrgent text
  let c := isComplex text
  { priority := if u then 8 else if c then 6 else 4
    estimatedHours := if c then 6 else 2
    complexity := if c then .high else .medium
    sentiment := .neutral
    tags := (extractKeywords text).map JsVal.str
    deadlineUrgency := if u then 9 else 5
    suggestedSubtasks := []
    optimalTimeSlot := .flexible
    confidenceScore := 70 }

/-- Index of the first occurrence of a character. -/
def firstIdx (c : Char) : List Char → Option ℕ
  | [] => none
  | a :: as => if a = c then some 0 else (firstIdx c as).map (· + 1)

/-- Index of the last occurrence of a character. -/
def lastIdx (c : Char) : List Char → Option ℕ
  | [] => none
  | a :: as =>
    match lastIdx c as with
    | some j => some (j + 1)
    | none => if a = c then some 0 else none

/-- Embeds the JSON extraction step of `AIService.analyzeTask`:
`aiResponse.match(/\{[\s\S]*\}/)`.  The regular expression matches
greedily from the first opening brace to the last closing brace; there is
a match exactly when the first opening brace sits strictly before the last
closing brace. -/
def extractJson (s : List Char) : Option (List Char) :=
  match firstIdx lbrace s, lastIdx rbrace s with
  | some i, some j => if i < j then some ((s.drop i).take (j + 1 - i)) else none
  | _, _ => none

/-- The response parsing performed on the raw remote reply in
`AIService.analyzeTask`: regex extraction followed by `JSON.parse`. -/
def codeParse (s : List Char) : Option JsVal :=
  match extractJson s with
  | some m => jsonParse m
  | none => none

/-- An exception thrown inside a pipeline body.  The cause is only logged
by the source, never used for control flow, except in `parseVoiceToTask`
where a `CustomError` is constructed. -/
structure CustomError where
  message : List Char
  statusCode : ℕ

/-- A thrown JavaScript value: either some non-`CustomError` error
(network failure, timeout, `JSON.parse` exception, plain `Error`) or a
`CustomError`. -/
inductive Thrown where
  | generic : Thrown
  | custom (e : CustomError) : Thrown

/-- Observable behaviour of the cache collaborator for `analyzeTask`:
`RedisClient.get` either throws, misses (including expiry), or hits; on a
hit the stored string either deserializes to a `TaskAnalysis` value or
`JSON.parse` throws on it (`corrupt`). -/
inductive CacheA where
  | err : CacheA
  | miss : CacheA
  | corrupt : CacheA
  | hit (v : TaskAnalysis) : CacheA

/-- Observable behaviour of the cache collaborator for
`generateTaskSuggestions`, holding a dynamic JSON value on a hit. -/
inductive CacheS where
  | err : CacheS
  | miss : CacheS
  | corrupt : CacheS
  | hit (v : JsVal) : CacheS

/-- Observable behaviour of one remote chat-completion call: the client
throws (timeout, quota, network — the pipeline never distinguishes), or
replies with `choices[0]?.message?.content`, which may be absent. -/
inductive RemoteRes where
  | err : RemoteRes
  | reply (content : Option (List Char)) : RemoteRes

/-- Collaborator behaviours for one `analyzeTask` invocation.
`sentimentOf` models `AIService.analyzeSentiment`, i.e. the `natural`
library tokenizer/stemmer/AFINN scorer applied to a text: an external
pure collaborator returning a numeric score. -/
structure AnalyzeEnv where
  isInitialized : Bool
  cache : CacheA
  remote : RemoteRes
  writeFails : Bool
  sentimentOf : List Char → ℚ

/-- Observable side effects of an `analyzeTask` invocation, in order. -/
inductive Ev where
  | promptBuild : Ev
  | remoteCall : Ev
  | cacheWrite (a : TaskAnalysis) : Ev

/-- The sentiment classification applied to the local score in
`AIService.analyzeTask`. -/
def classifySentiment (score : ℚ) : Sentiment :=
  if 0 < score then .positive else if score < 0 then .negative else .neutral

/-- The `finalAnalysis` record built in `AIService.analyzeTask` from the
parsed remote JSON `j` (validation/repair plus local sentiment). -/
def buildFinal (env : AnalyzeEnv) (j : JsVal) (description : List Char) : TaskAnalysis :=
  { priority := validateRange (rawGet j (("priority").toList)) 1 10 5
    estimatedHours := validateRange (rawGet j (("estimatedHours").toList)) (1 / 2) 40 2
    complexity := validateComplexity (rawGet j (("complexity").toList))
    sentiment := classifySentiment (env.sentimentOf description)
    tags := arrTake (rawGet j (("tags").toList)) 8
    deadlineUrgency := validateRange (rawGet j (("deadlineUrgency").toList)) 1 10 5
    suggestedSubtasks := arrTake (rawGet j (("suggestedSubtasks").toList)) 5
    optimalTimeSlot := validateTimeSlot (rawGet j (("optimalTimeSlot").toList))
    confidenceScore := calculateConfidenceScore j }

/-- The body of the `try` block of `AIService.analyzeTask`: every `await`
that can reject and every statement that can throw is an `Except.error`
exit; the inner `try/catch` around extraction/parsing returns the
heuristic fallback directly.  The event list records prompt construction,
remote calls and successful cache writes. -/
def analyzeTaskRaw (env : AnalyzeEnv) (title description : List Char) :
    Except Thrown TaskAnalysis × List Ev :=
  if env.isInitialized = false then (.ok (fallbackAnalysis title description), [])
  else
    match env.cache with
    | .err => (.error .generic, [])
    | .corrupt => (.error .generic, [])
    | .hit v => (.ok v, [])
    | .miss =>
      match env.remote with
      | .err => (.error .generic, [.promptBuild, .remoteCall])
      | .reply contentOpt =>
        let evs := [Ev.promptBuild, Ev.remoteCall]
        match contentOpt with
        | none => (.error .generic, evs)
        | some content =>
          if content = [] then (.error .generic, evs)
          else
            match extractJson content with
            | none => (.ok (fallbackAnalysis title description), evs)
            | some m =>
              match jsonParse m with
              | none => (.ok (fallbackAnalysis title description), evs)
              | some j =>
                let final := buildFinal env j description
                if env.writeFails then (.error .generic, evs)
                else (.ok final, evs ++ [.cacheWrite final])

/-- Embeds `AIService.analyzeTask`: the `try` body wrapped in the outer
`catch`, which converts any thrown error into the heuristic fallback
result. -/
def analyzeTask (env : AnalyzeEnv) (title description : List Char) :
    Except Thrown TaskAnalysis × List Ev :=
  match analyzeTaskRaw env title description with
  | (.ok v, evs) => (.ok v, evs)
  | (.error _, evs) => (.ok (fallbackAnalysis title description), evs)

/-- The five default suggestions of `AIService.getDefaultSuggestions`,
as the dynamic value the function returns. -/
def defaultSuggestionsJs : JsVal :=
  .arr [.str (("Review and update project documentation").toList),
        .str (("Schedule weekly team check-in meeting").toList),
        .str (("Conduct code review for recent changes").toList),
        .str (("Plan next sprint activities and priorities").toList),
        .str (("Update task dependencies and blockers").toList)]

/-- The single default insight of `AIService.getDefaultInsights`, as the
dynamic value the function returns. -/
def defaultInsightsJs : JsVal :=
  .arr [.obj [((("type").toList), .str (("recommendation").toList)),
              ((("title").toList), .str (("Focus Time Optimization").toList)),
              ((("description").toList),
                .str (("Consider blocking dedicated focus time for complex tasks").toList)),
              ((("impact").toList), .str (("medium").toList)),
              ((("actionable").toList), .bool true),
              ((("suggestions").toList),
                .arr [.str (("Block 2-hour focus sessions").toList),
                      .str (("Turn off notifications during deep work").toList)])]]

/-- Collaborator behaviours for one `generateTaskSuggestions` call. -/
structure SuggestEnv where
  isInitialized : Bool
  cache : CacheS
  remote : RemoteRes
  writeFails : Bool

/-- Observable side effects of a `generateTaskSuggestions` call: remote
calls and successful cache writes with the exact value stored. -/
inductive SEv where
  | remoteCall : SEv
  | cacheWrite (v : JsVal) : SEv

/-- The string handed to `JSON.parse` in `generateTaskSuggestions` and
`generateProductivityInsights`: `content || '[]'` (a missing or empty
content field falls back to the empty-array literal). -/
def arrContent (contentOpt : Option (List Char)) : List Char :=
  match contentOpt with
  | none => ['[', ']']
  | some s => if s = [] then ['[', ']'] else s

/-- The body of the `try` block of `AIService.generateTaskSuggestions`.
Note the order in the source: the parsed reply is written to the cache
before the `Array.isArray` check and the truncation to `limit`. -/
def generateTaskSuggestionsRaw (env : SuggestEnv) (userId context : List Char)
    (limit : ℕ) : Except Thrown JsVal × List SEv :=
  if env.isInitialized = false then (.ok defaultSuggestionsJs, [])
  else
    match env.cache with
    | .err => (.error .generic, [])
    | .corrupt => (.error .generic, [])
    | .hit v => (.ok v, [])
    | .miss =>
      match env.remote with
      | .err => (.error .generic, [.remoteCall])
      | .reply contentOpt =>
        match jsonParse (arrContent contentOpt) with
        | none => (.error .generic, [.remoteCall])
        | some suggestions =>
          if env.writeFails then (.error .generic, [.remoteCall])
          else
            match suggestions with
            | .arr l =>
              (.ok (.arr (l.take limit)), [.remoteCall, .cacheWrite suggestions])
            | _ =>
              (.ok defaultSuggestionsJs, [.remoteCall, .cacheWrite suggestions])

/-- Embeds `AIService.generateTaskSuggestions`: the `try` body wrapped in
the outer `catch`, which converts any thrown error into the default
suggestions. -/
def generateTaskSuggestions (env : SuggestEnv) (userId context : List Char)
    (limit : ℕ) : Except Thrown JsVal × List SEv :=
  match generateTaskSuggestionsRaw env userId context limit with
  | (.ok v, evs) => (.ok v, evs)
  | (.error _, evs) => (.ok defaultSuggestionsJs, evs)

/-- Collaborator behaviours for one `generateProductivityInsights` call
(this operation uses no cache). -/
structure InsightEnv where
  isInitialized : Bool
  remote : RemoteRes

/-- The body of the `try` block of
`AIService.generateProductivityInsights`. -/
def generateProductivityInsightsRaw (env : InsightEnv) (userData : JsVal) :
    Except Thrown JsVal :=
  if env.isInitialized = false then .ok defaultInsightsJs
  else
    match env.remote with
    | .err => .error .generic
    | .reply contentOpt =>
      match jsonParse (arrContent contentOpt) with
      | none => .error .generic
      | some insights =>
        match insights with
        | .arr l => .ok (.arr l)
        | _ => .ok defaultInsightsJs

/-- Embeds `AIService.generateProductivityInsights`: the `try` body
wrapped in the outer `catch`, which converts any thrown error into the
default insights. -/
def generateProductivityInsights (env : InsightEnv) (userData : JsVal) :
    Except Thrown JsVal :=
  match generateProductivityInsightsRaw env userData with
  | .ok v => .ok v
  | .error _ => .ok defaultInsightsJs

/-- Collaborator behaviours for one `parseVoiceToTask` call.  `dateOk`
models the external `Date` constructor: whether `new Date(v)` yields a
valid date for the given dynamic value. -/
structure VoiceEnv where
  isInitialized : Bool
  remote : RemoteRes
  dateOk : JsVal → Bool

/-- The task draft returned by `parseVoiceToTask`.  Fields that the source
passes through unchecked keep the dynamic type. -/
structure TaskDraft where
  title : JsVal
  description : JsVal
  priority : ℚ
  estimatedHours : ℚ
  dueDate : JsVal
  tags : List JsVal
  category : JsVal

/-- Embeds `AIService.validateDate`: falsy input gives `null`, an
unparseable date gives `null`, otherwise the original value is kept. -/
def validateDate (env : VoiceEnv) (d : JsVal) : JsVal :=
  if jsFalsy d then .null else if env.dateOk d then d else .null

/-- The string handed to `JSON.parse` in `parseVoiceToTask`:
`content || '{}'`. -/
def objContent (contentOpt : Option (List Char)) : List Char :=
  match contentOpt with
  | none => [lbrace, rbrace]
  | some s => if s = [] then [lbrace, rbrace] else s

/-- The `CustomError` thrown inside `parseVoiceToTask` when the service is
not initialized. -/
def serviceUnavailableErr : CustomError :=
  { message := ("AI service not available").toList, statusCode := 503 }

/-- The `CustomError` thrown by the `catch` block of `parseVoiceToTask`. -/
def voiceProcessingErr : CustomError :=
  { message := ("Failed to process voice input").toList, statusCode := 500 }

/-- The body of the `try` block of `AIService.parseVoiceToTask`: throws a
503 `CustomError` when uninitialized, otherwise calls the remote model,
parses `content || '{}'`, and sanitizes the fields. -/
def parseVoiceToTaskRaw (env : VoiceEnv) (transcription : List Char) :
    Except Thrown TaskDraft :=
  if env.isInitialized = false then .error (.custom serviceUnavailableErr)
  else
    match env.remote with
    | .err => .error .generic
    | .reply contentOpt =>
      match jsonParse (objContent contentOpt) with
      | none => .error .generic
      | some taskData =>
        .ok
          { title :=
              if jsFalsy (rawGet taskData (("title").toList)) then .str (("Voice Task").toList)
              else rawGet taskData (("title").toList)
            description :=
              if jsFalsy (rawGet taskData (("description").toList)) then .str transcription
              else rawGet taskData (("description").toList)
            priority := validateRange (rawGet taskData (("priority").toList)) 1 10 5
            estimatedHours :=
              validateRange (rawGet taskData (("estimatedHours").toList)) (1 / 2) 20 1
            dueDate := validateDate env (rawGet taskData (("dueDate").toList))
            tags :=
              match rawGet taskData (("tags").toList) with
              | .arr l => l.take 5
              | _ => [.str (("voice").toList)]
            category :=
              if jsFalsy (rawGet taskData (("category").toList)) then .str (("other").toList)
              else rawGet taskData (("category").toList) }

/-- Embeds `AIService.parseVoiceToTask`: the `try` body wrapped in the
`catch` block, which swallows every thrown error — including the internal
503 `CustomError` — and throws the 500 processing-failure `CustomError`
instead. -/
def parseVoiceToTask (env : VoiceEnv) (transcription : List Char) :
    Except CustomError TaskDraft :=
  match parseVoiceToTaskRaw env transcription with
  | .ok v => .ok v
  | .error _ => .error voiceProcessingErr

/-- Modelled from the spec (Response Parser contract, §4.4): scan from a
bracket opener, maintaining a stack of expected closers, and return the
length of the shortest balanced region; bracket counting over both
bracket kinds.  `n` counts the characters already consumed. -/
def balLen (stack : List Char) (n : ℕ) : List Char → Option ℕ
  | [] => none
  | c :: cs =>
    if c = lbrace then balLen (rbrace :: stack) (n + 1) cs
    else if c = '[' then balLen (']' :: stack) (n + 1) cs
    else if c = rbrace ∨ c = ']' then
      match stack with
      | [] => none
      | top :: rest =>
        if c = top then
          if rest = [] then some (n + 1) else balLen rest (n + 1) cs
        else none
    else balLen stack (n + 1) cs

/-- Modelled from the spec (Response Parser contract, §4.4): locate the
first syntactically balanced JSON object `(...braces...)` or array
`[...]` substring of the raw reply text. -/
def firstBalanced : List Char → Option (List Char)
  | [] => none
  | c :: cs =>
    if c = lbrace ∨ c = '[' then
      match balLen [(if c = lbrace then rbrace else ']')] 1 cs with
      | some n => some ((c :: cs).take n)
      | none => firstBalanced cs
    else firstBalanced cs

/-- Modelled from the spec (Response Parser contract, §4.4): the response
parser as the spec describes it — parse the first balanced bracketed
region, failing if none exists or the region is not valid JSON. -/
def specParse (s : List Char) : Option JsVal :=
  match firstBalanced s with
  | some r => jsonParse r
  | none => none

/-- A rational with at most one decimal place: ten times it is an
integer.  All `validateRange` call sites in the source use such bounds
and defaults. -/
def oneDecimal (x : ℚ) : Prop := ∃ n : ℤ, x * 10 = (n : ℚ)

/-- The declared field invariants of a `TaskAnalysis` (spec §3): every
numeric field in range, every enum in its set, every array within its
length bound. -/
def wellFormedTA (a : TaskAnalysis) : Prop :=
  1 ≤ a.priority ∧ a.priority ≤ 10 ∧
  1 / 2 ≤ a.estimatedHours ∧ a.estimatedHours ≤ 40 ∧
  (a.complexity = .low ∨ a.complexity = .medium ∨ a.complexity = .high) ∧
  (a.sentiment = .positive ∨ a.sentiment = .negative ∨ a.sentiment = .neutral) ∧
  a.tags.length ≤ 8 ∧
  1 ≤ a.deadlineUrgency ∧ a.deadlineUrgency ≤ 10 ∧
  a.suggestedSubtasks.length ≤ 5 ∧
  (a.optimalTimeSlot = .morning ∨ a.optimalTimeSlot = .afternoon ∨
    a.optimalTimeSlot = .evening ∨ a.optimalTimeSlot = .flexible) ∧
  60 ≤ a.confidenceScore ∧ a.confidenceScore ≤ 99

/-- The claim's notion of a regex match for the greedy brace pattern: an
opening brace strictly before a closing brace. -/
def HasBracePair (s : List Char) : Prop :=
  ∃ i j : ℕ, i < j ∧ s[i]? = some lbrace ∧ s[j]? = some rbrace

/-- Length of a dynamic value when it is an array, zero otherwise (used
to state the `limit` bounds of `generateTaskSuggestions`). -/
def jsLen : JsVal → ℕ
  | .arr l => l.length
  | _ => 0

/-- Rounding an integer-valued rational is the identity. -/
theorem jsRound_intCast (n : ℤ) : jsRound ((n : ℚ)) = n := by
  unfold jsRound
  rw [add_comm, Int.floor_add_int]
  norm_num

/-- `jsRound` is monotone. -/
theorem jsRound_mono {a b : ℚ} (h : a ≤ b) : jsRound a ≤ jsRound b := by
  unfold jsRound
  exact Int.floor_le_floor (by linarith)

/-- `validateRange` with one-decimal bounds lands in the range or returns
the default (shared helper for several claims). -/
theorem validateRange_mem_or_default (v : JsVal) (mi ma df : ℚ)
    (hmi : oneDecimal mi) (hma : oneDecimal ma) :
    (mi ≤ validateRange v mi ma df ∧ validateRange v mi ma df ≤ ma) ∨
      validateRange v mi ma df = df := by
  obtain ⟨nmi, hnmi⟩ := hmi
  obtain ⟨nma, hnma⟩ := hma
  unfold validateRange
  cases hj : jsToNum v with
  | none => right; rfl
  | some q =>
    dsimp only
    by_cases hq : q < mi ∨ ma < q
    · right
      rw [if_pos hq]
    · left
      rw [if_neg hq]
      push_neg at hq
      obtain ⟨h1, h2⟩ := hq
      have hql : mi * 10 ≤ q * 10 := by nlinarith
      have hqr : q * 10 ≤ ma * 10 := by nlinarith
      have hlow : nmi ≤ jsRound (q * 10) := by
        have h3 : jsRound ((nmi : ℚ)) ≤ jsRound (q * 10) := jsRound_mono (by rw [← hnmi]; exact hql)
        rwa [jsRound_intCast] at h3
      have hhigh : jsRound (q * 10) ≤ nma := by
        have h3 : jsRound (q * 10) ≤ jsRound ((nma : ℚ)) := jsRound_mono (by rw [← hnma]; exact hqr)
        rwa [jsRound_intCast] at h3
      have hlow' : (nmi : ℚ) ≤ (jsRound (q * 10) : ℚ) := by exact_mod_cast hlow
      have hhigh' : (jsRound (q * 10) : ℚ) ≤ (nma : ℚ) := by exact_mod_cast hhigh
      constructor
      · rw [← hnmi] at hlow'
        linarith
      · rw [← hnma] at hhigh'
        linarith

/-- `validateRange` on an in-model number with one decimal place is a
plain range test (rounding is the identity there). -/
theorem validateRange_num_eval (x mi ma df : ℚ) (hx : oneDecimal x) :
    validateRange (.num x) mi ma df = if x < mi ∨ ma < x then df else x := by
  obtain ⟨n, hn⟩ := hx
  unfold validateRange jsToNum
  dsimp only
  by_cases h : x < mi ∨ ma < x
  · rw [if_pos h, if_pos h]
  · rw [if_neg h, if_neg h, hn, jsRound_intCast, ← hn]
    field_simp

/-- The result of `validateRange` has one decimal place whenever the
default does. -/
theorem oneDecimal_validateRange (v : JsVal) (mi ma df : ℚ) (hdf : oneDecimal df) :
    oneDecimal (validateRange v mi ma df) := by
  unfold validateRange
  cases jsToNum v with
  | none => exact hdf
  | some q =>
    dsimp only
    by_cases h : q < mi ∨ ma < q
    · rw [if_pos h]; exact hdf
    · rw [if_neg h]
      exact ⟨jsRound (q * 10), by field_simp⟩

/-- Every `Complexity` value is in its declared enum set. -/
theorem complexity_cases (c : Complexity) : c = .low ∨ c = .medium ∨ c = .high := by
  cases c
  · exact Or.inl rfl
  · exact Or.inr (Or.inl rfl)
  · exact Or.inr (Or.inr rfl)

/-- Every `Sentiment` value is in its declared enum set. -/
theorem sentiment_cases (s : Sentiment) : s = .positive ∨ s = .negative ∨ s = .neutral := by
  cases s
  · exact Or.inl rfl
  · exact Or.inr (Or.inl rfl)
  · exact Or.inr (Or.inr rfl)

/-- Every `TimeSlot` value is in its declared enum set. -/
theorem timeSlot_cases (t : TimeSlot) :
    t = .morning ∨ t = .afternoon ∨ t = .evening ∨ t = .flexible := by
  cases t
  · exact Or.inl rfl
  · exact Or.inr (Or.inl rfl)
  · exact Or.inr (Or.inr (Or.inl rfl))
  · exact Or.inr (Or.inr (Or.inr rfl))

/-- `arrTake` respects its length bound. -/
theorem arrTake_length_le (v : JsVal) (n : ℕ) : (arrTake v n).length ≤ n := by
  cases v <;> simp [arrTake, List.length_take]

/-- The confidence score is clamped into `[60, 99]` for every raw
analysis value. -/
theorem calculateConfidenceScore_bounds (j : JsVal) :
    60 ≤ calculateConfidenceScore j ∧ calculateConfidenceScore j ≤ 99 := by
  unfold calculateConfidenceScore
  refine ⟨le_max_right _ _, max_le (min_le_right _ _) (by norm_num)⟩

/-- The heuristic fallback result satisfies every declared field
invariant. -/
theorem fallbackAnalysis_wellFormed (title description : List Char) :
    wellFormedTA (fallbackAnalysis title description) := by
  unfold wellFormedTA fallbackAnalysis
  refine ⟨?_, ?_, ?_, ?_, ?_, ?_, ?_, ?_, ?_, ?_, ?_, ?_, ?_⟩ <;>
    simp [extractKeywords, List.length_take] <;> first
      | (split_ifs <;> norm_num)
      | norm_num

/-- The validated `finalAnalysis` built from any parsed remote JSON value
satisfies every declared field invariant. -/
theorem buildFinal_wellFormed (env : AnalyzeEnv) (j : JsVal) (description : List Char) :
    wellFormedTA (buildFinal env j description) := by
  unfold wellFormedTA buildFinal
  refine ⟨?_, ?_, ?_, ?_, ?_, ?_, ?_, ?_, ?_, ?_, ?_, ?_, ?_⟩
  · rcases validateRange_mem_or_default (rawGet j (("priority").toList)) 1 10 5
      ⟨10, by norm_num⟩ ⟨100, by norm_num⟩ with ⟨h1, _⟩ | he
    · exact h1
    · rw [he]; norm_num
  · rcases validateRange_mem_or_default (rawGet j (("priority").toList)) 1 10 5
      ⟨10, by norm_num⟩ ⟨100, by norm_num⟩ with ⟨_, h2⟩ | he
    · exact h2
    · rw [he]; norm_num
  · rcases validateRange_mem_or_default (rawGet j (("estimatedHours").toList)) (1 / 2) 40 2
      ⟨5, by norm_num⟩ ⟨400, by norm_num⟩ with ⟨h1, _⟩ | he
    · exact h1
    · rw [he]; norm_num
  · rcases validateRange_mem_or_default (rawGet j (("estimatedHours").toList)) (1 / 2) 40 2
      ⟨5, by norm_num⟩ ⟨400, by norm_num⟩ with ⟨_, h2⟩ | he
    · exact h2
    · rw [he]; norm_num
  · exact complexity_cases _
  · exact sentiment_cases _
  · exact arrTake_length_le _ _
  · rcases validateRange_mem_or_default (rawGet j (("deadlineUrgency").toList)) 1 10 5
      ⟨10, by norm_num⟩ ⟨100, by norm_num⟩ with ⟨h1, _⟩ | he
    · exact h1
    · rw [he]; norm_num
  · rcases validateRange_mem_or_default (rawGet j (("deadlineUrgency").toList)) 1 10 5
      ⟨10, by norm_num⟩ ⟨100, by norm_num⟩ with ⟨_, h2⟩ | he
    · exact h2
    · rw [he]; norm_num
  · exact arrTake_length_le _ _
  · exact timeSlot_cases _
  · exact (calculateConfidenceScore_bounds j).1
  · exact (calculateConfidenceScore_bounds j).2

/-- `firstIdx` finds an occurrence, and the earliest one. -/
theorem firstIdx_spec (c : Char) :
    ∀ (s : List Char) (i : ℕ), firstIdx c s = some i →
      s[i]? = some c ∧ ∀ k : ℕ, k < i → s[k]? ≠ some c := by
  intro s
  induction s with
  | nil => intro i h; simp [firstIdx] at h
  | cons a as ih =>
    intro i h
    unfold firstIdx at h
    by_cases hac : a = c
    · rw [if_pos hac] at h
      obtain rfl : i = 0 := by injection h with h'; exact h'.symm
      subst hac
      refine ⟨by simp, ?_⟩
      intro k hk
      omega
    · rw [if_neg hac] at h
      cases hf : firstIdx c as with
      | none => rw [hf] at h; simp at h
      | some i' =>
        rw [hf] at h
        obtain rfl : i = i' + 1 := by injection h with h'; exact h'.symm
        obtain ⟨h1, h2⟩ := ih i' hf
        refine ⟨by simpa using h1, ?_⟩
        intro k hk
        cases k with
        | zero => simpa using hac
        | succ k' => simpa using h2 k' (by omega)

/-- When `firstIdx` finds nothing, the character does not occur. -/
theorem firstIdx_none (c : Char) :
    ∀ (s : List Char), firstIdx c s = none → ∀ k : ℕ, s[k]? ≠ some c := by
  intro s
  induction s with
  | nil => intro _ k; simp
  | cons a as ih =>
    intro h k
    unfold firstIdx at h
    by_cases hac : a = c
    · rw [if_pos hac] at h; simp at h
    · rw [if_neg hac] at h
      cases hf : firstIdx c as with
      | none =>
        cases k with
        | zero => simpa using hac
        | succ k' => simpa using ih hf k'
      | some i' => rw [hf] at h; simp at h

/-- When `lastIdx` finds nothing, the character does not occur. -/
theorem lastIdx_none (c : Char) :
    ∀ (s : List Char), lastIdx c s = none → ∀ k : ℕ, s[k]? ≠ some c := by
  intro s
  induction s with
  | nil => intro _ k; simp
  | cons a as ih =>
    intro h k
    unfold lastIdx at h
    cases hl : lastIdx c as with
    | some j' => rw [hl] at h; simp at h
    | none =>
      rw [hl] at h
      by_cases hac : a = c
      · rw [if_pos hac] at h; simp at h
      · cases k with
        | zero => simpa using hac
        | succ k' => simpa using ih hl k'

/-- `lastIdx` finds an occurrence, and the latest one. -/
theorem lastIdx_spec (c : Char) :
    ∀ (s : List Char) (j : ℕ), lastIdx c s = some j →
      s[j]? = some c ∧ ∀ k : ℕ, j < k → s[k]? ≠ some c := by
  intro s
  induction s with
  | nil => intro j h; simp [lastIdx] at h
  | cons a as ih =>
    intro j h
    unfold lastIdx at h
    cases hl : lastIdx c as with
    | some j' =>
      rw [hl] at h
      obtain rfl : j = j' + 1 := by injection h with h'; exact h'.symm
      obtain ⟨h1, h2⟩ := ih j' hl
      refine ⟨by simpa using h1, ?_⟩
      intro k hk
      cases k with
      | zero => omega
      | succ k' => simpa using h2 k' (by omega)
    | none =>
      rw [hl] at h
      by_cases hac : a = c
      · rw [if_pos hac] at h
        obtain rfl : j = 0 := by injection h with h'; exact h'.symm
        subst hac
        refine ⟨by simp, ?_⟩
        intro k hk
        cases k with
        | zero => omega
        | succ k' => simpa using lastIdx_none _ as hl k'
      · rw [if_neg hac] at h; simp at h

/-- The greedy extraction step fails exactly when the reply has no opening
brace strictly before a closing brace. -/
theorem extractJson_eq_none_iff (s : List Char) :
    extractJson s = none ↔ ¬ HasBracePair s := by
  unfold extractJson
  cases hf : firstIdx lbrace s with
  | none =>
    refine ⟨fun _ => ?_, fun _ => rfl⟩
    rintro ⟨i, j, _, hi, _⟩
    exact firstIdx_none lbrace s hf i hi
  | some i =>
    cases hl : lastIdx rbrace s with
    | none =>
      refine ⟨fun _ => ?_, fun _ => rfl⟩
      rintro ⟨i', j', _, _, hj⟩
      exact lastIdx_none rbrace s hl j' hj
    | some j =>
      dsimp only
      by_cases hij : i < j
      · rw [if_pos hij]
        refine ⟨fun h => by simp at h, fun h => ?_⟩
        exact absurd ⟨i, j, hij, (firstIdx_spec lbrace s i hf).1,
          (lastIdx_spec rbrace s j hl).1⟩ h
      · rw [if_neg hij]
        refine ⟨fun _ => ?_, fun _ => rfl⟩
        rintro ⟨i', j', hij', hi', hj'⟩
        have h1 : i ≤ i' := by
          by_contra hcon
          exact (firstIdx_spec lbrace s i hf).2 i' (by omega) hi'
        have h2 : j' ≤ j := by
          by_contra hcon
          exact (lastIdx_spec rbrace s j hl).2 j' (by omega) hj'
        omega

/-- The outer `catch` of `analyzeTask` always yields a fulfilled promise. -/
theorem analyzeTask_isOk (env : AnalyzeEnv) (title description : List Char) :
    ∃ a evs, analyzeTask env title description = (Except.ok a, evs) := by
  unfold analyzeTask
  rcases h : analyzeTaskRaw env title description with ⟨res, evs⟩
  cases res with
  | ok v => exact ⟨v, evs, rfl⟩
  | error e => exact ⟨fallbackAnalysis title description, evs, rfl⟩

/-- When the `try` body of `analyzeTask` throws, the `catch` returns the
heuristic fallback. -/
theorem analyzeTask_err (env : AnalyzeEnv) (title description : List Char)
    (e : Thrown) (evs : List Ev) (h : analyzeTaskRaw env title description = (.error e, evs)) :
    analyzeTask env title description = (.ok (fallbackAnalysis title description), evs) := by
  unfold analyzeTask
  rw [h]

/-- Every fulfilled result of the `try` body of `analyzeTask` is the
fallback, the verbatim cache hit, or a validated `finalAnalysis`. -/
theorem analyzeTaskRaw_ok_shape (env : AnalyzeEnv) (title description : List Char)
    (v : TaskAnalysis) (evs : List Ev)
    (h : analyzeTaskRaw env title description = (.ok v, evs)) :
    v = fallbackAnalysis title description ∨ env.cache = CacheA.hit v ∨
      ∃ j, v = buildFinal env j description := by
  unfold analyzeTaskRaw at h
  split at h
  · simp only [Prod.mk.injEq, Except.ok.injEq] at h
    exact Or.inl h.1.symm
  · split at h
    · simp at h
    · simp at h
    · simp only [Prod.mk.injEq, Except.ok.injEq] at h
      rename_i heq
      exact Or.inr (Or.inl (by rw [heq, h.1]))
    · split at h
      · simp at h
      · split at h
        · simp at h
        · split at h
          · simp at h
          · split at h
            · simp only [Prod.mk.injEq, Except.ok.injEq] at h
              exact Or.inl h.1.symm
            · split at h
              · simp only [Prod.mk.injEq, Except.ok.injEq] at h
                exact Or.inl h.1.symm
              · split at h
                · simp at h
                · simp only [Prod.mk.injEq, Except.ok.injEq] at h
                  exact Or.inr (Or.inr ⟨_, h.1.symm⟩)

/-- The outer `catch` of `generateTaskSuggestions` always yields a
fulfilled promise. -/
theorem generateTaskSuggestions_isOk (env : SuggestEnv) (userId context : List Char)
    (limit : ℕ) :
    ∃ s evs, generateTaskSuggestions env userId context limit = (Except.ok s, evs) := by
  unfold generateTaskSuggestions
  rcases h : generateTaskSuggestionsRaw env userId context limit with ⟨res, evs⟩
  cases res with
  | ok v => exact ⟨v, evs, rfl⟩
  | error e => exact ⟨defaultSuggestionsJs, evs, rfl⟩

/-- When the `try` body of `generateTaskSuggestions` throws, the `catch`
returns the default suggestions. -/
theorem generateTaskSuggestions_err (env : SuggestEnv) (userId context : List Char)
    (limit : ℕ) (e : Thrown) (evs : List SEv)
    (h : generateTaskSuggestionsRaw env userId context limit = (.error e, evs)) :
    generateTaskSuggestions env userId context limit = (.ok defaultSuggestionsJs, evs) := by
  unfold generateTaskSuggestions
  rw [h]

/-- The outer `catch` of `generateProductivityInsights` always yields a
fulfilled promise. -/
theorem generateProductivityInsights_isOk (env : InsightEnv) (userData : JsVal) :
    ∃ i, generateProductivityInsights env userData = Except.ok i := by
  unfold generateProductivityInsights
  cases h : generateProductivityInsightsRaw env userData with
  | ok v => exact ⟨v, rfl⟩
  | error e => exact ⟨defaultInsightsJs, rfl⟩

/-- When the `try` body of `generateProductivityInsights` throws, the
`catch` returns the default insights. -/
theorem generateProductivityInsights_err (env : InsightEnv) (userData : JsVal)
    (e : Thrown) (h : generateProductivityInsightsRaw env userData = .error e) :
    generateProductivityInsights env userData = .ok defaultInsightsJs := by
  unfold generateProductivityInsights
  rw [h]

/-- A fulfilled `try` body passes through the `catch` unchanged. -/
theorem analyzeTask_of_raw_ok (env : AnalyzeEnv) (title description : List Char)
    (v : TaskAnalysis) (evs : List Ev)
    (h : analyzeTaskRaw env title description = (.ok v, evs)) :
    analyzeTask env title description = (.ok v, evs) := by
  unfold analyzeTask
  rw [h]

/-- On an initialized service, a cache miss, a non-empty reply whose
extracted region parses, the `try` body reaches the validated
`finalAnalysis` (or throws on the cache write). -/
theorem analyzeTaskRaw_miss_parse (env : AnalyzeEnv) (title description content m : List Char)
    (j : JsVal) (hinit : env.isInitialized = true) (hmiss : env.cache = CacheA.miss)
    (hrem : env.remote = RemoteRes.reply (some content)) (hne : content ≠ [])
    (hm : extractJson content = some m) (hj : jsonParse m = some j) :
    analyzeTaskRaw env title description =
      (if env.writeFails then (.error .generic, [.promptBuild, .remoteCall])
       else (.ok (buildFinal env j description),
         [.promptBuild, .remoteCall, .cacheWrite (buildFinal env j description)])) := by
  unfold analyzeTaskRaw
  simp [hinit, hmiss, hrem, hne, hm, hj]

/-- C1: for every input and every behaviour of the remote client and
cache collaborators (failure, timeout, empty reply, unparseable reply,
corrupt cache string), `analyzeTask`, `generateTaskSuggestions` and
`generateProductivityInsights` never raise: each returns a fulfilled
result, and whenever the `try` body throws, the returned value is the
heuristic fallback / default result. -/
theorem c1_pipelines_total (aenv : AnalyzeEnv) (senv : SuggestEnv) (ienv : InsightEnv)
    (title description userId context : List Char) (limit : ℕ) (userData : JsVal) :
    (∃ a evs, analyzeTask aenv title description = (Except.ok a, evs)) ∧
    (∃ s evs, generateTaskSuggestions senv userId context limit = (Except.ok s, evs)) ∧
    (∃ i, generateProductivityInsights ienv userData = Except.ok i) ∧
    (∀ e evs, analyzeTaskRaw aenv title description = (.error e, evs) →
      analyzeTask aenv title description = (.ok (fallbackAnalysis title description), evs)) ∧
    (∀ e evs, generateTaskSuggestionsRaw senv userId context limit = (.error e, evs) →
      generateTaskSuggestions senv userId context limit = (.ok defaultSuggestionsJs, evs)) ∧
    (∀ e, generateProductivityInsightsRaw ienv userData = .error e →
      generateProductivityInsights ienv userData = .ok defaultInsightsJs) := by
  refine ⟨analyzeTask_isOk aenv title description,
    generateTaskSuggestions_isOk senv userId context limit,
    generateProductivityInsights_isOk ienv userData, ?_, ?_, ?_⟩
  · intro e evs h
    exact analyzeTask_err aenv title description e evs h
  · intro e evs h
    exact generateTaskSuggestions_err senv userId context limit e evs h
  · intro e h
    exact generateProductivityInsights_err ienv userData e h

/-- Witness for C1: with a throwing cache (analysis, suggestions) and a
throwing remote client (insights), all three calls still fulfil, with the
fallback / default values. -/
theorem c1_pipelines_total_witness :
    analyzeTask ⟨true, CacheA.err, RemoteRes.reply none, false, fun _ => 0⟩
        (("t").toList) (("d").toList) =
      (Except.ok (fallbackAnalysis (("t").toList) (("d").toList)), []) ∧
    generateTaskSuggestions ⟨true, CacheS.err, RemoteRes.reply none, false⟩
        (("u").toList) (("c").toList) 5 =
      (Except.ok defaultSuggestionsJs, []) ∧
    generateProductivityInsights ⟨true, RemoteRes.err⟩ JsVal.null =
      Except.ok defaultInsightsJs := by
  have h := c1_pipelines_total ⟨true, CacheA.err, RemoteRes.reply none, false, fun _ => 0⟩
    ⟨true, CacheS.err, RemoteRes.reply none, false⟩ ⟨true, RemoteRes.err⟩
    (("t").toList) (("d").toList) (("u").toList) (("c").toList) 5 JsVal.null
  exact ⟨h.2.2.2.1 Thrown.generic [] rfl, h.2.2.2.2.1 Thrown.generic [] rfl,
    h.2.2.2.2.2 Thrown.generic rfl⟩

/-- C2: on every path that is not a cache hit, the `TaskAnalysis`
returned by `analyzeTask` has every field present and within its declared
range/enum, whatever the remote reply looked like. -/
theorem c2_analysis_invariants (env : AnalyzeEnv) (title description : List Char)
    (a : TaskAnalysis) (evs : List Ev)
    (hnohit : ∀ v, env.cache ≠ CacheA.hit v)
    (h : analyzeTask env title description = (Except.ok a, evs)) :
    wellFormedTA a := by
  unfold analyzeTask at h
  rcases hr : analyzeTaskRaw env title description with ⟨res, evs'⟩
  rw [hr] at h
  cases res with
  | error e =>
    simp only [Prod.mk.injEq, Except.ok.injEq] at h
    rw [← h.1]
    exact fallbackAnalysis_wellFormed title description
  | ok v =>
    simp only [Prod.mk.injEq, Except.ok.injEq] at h
    rcases analyzeTaskRaw_ok_shape env title description v evs' hr with hfb | hhit | ⟨j, hbf⟩
    · rw [← h.1, hfb]
      exact fallbackAnalysis_wellFormed title description
    · exact absurd hhit (hnohit v)
    · rw [← h.1, hbf]
      exact buildFinal_wellFormed env j description

/-- Witness for C2: a concrete non-cache-hit run (cache get throws, so
the fallback is returned) produces a well-formed analysis. -/
theorem c2_analysis_invariants_witness :
    wellFormedTA (fallbackAnalysis (("Fix bug").toList) (("today").toList)) := by
  refine c2_analysis_invariants ⟨true, CacheA.err, RemoteRes.reply none, false, fun _ => 0⟩
    (("Fix bug").toList) (("today").toList)
    (fallbackAnalysis (("Fix bug").toList) (("today").toList)) [] ?_ rfl
  intro v h
  exact CacheA.noConfusion h

/-- Counterexample to C3: the code's extraction step only looks for
braces, so a reply consisting of a plain JSON array — which the claimed
first-balanced-region parser accepts — takes the fallback path. -/
theorem c3_counterexample :
    codeParse (("[1,2]").toList) = none ∧
    specParse (("[1,2]").toList) = some (.arr [.num 1, .num 2]) := by
  exact ⟨rfl, rfl⟩

/-- C3 (amended): the response parser takes the greedy substring from the
first opening brace to the last closing brace (arrays are never located,
and an inner balanced object is not isolated from trailing garbage); it
fails exactly when no opening brace precedes a closing brace or that
greedy substring is not valid JSON.  The two concrete examples of the
claim do hold. -/
theorem c3_amended :
    (∀ s : List Char, codeParse s = none ↔
      (¬ HasBracePair s ∨ ∃ m, extractJson s = some m ∧ jsonParse m = none)) ∧
    codeParse (("noise \x7b\"a\":1\x7d noise").toList) = some (.obj [(['a'], .num 1)]) ∧
    codeParse (("no braces here").toList) = none := by
  refine ⟨?_, rfl, rfl⟩
  intro s
  unfold codeParse
  cases hx : extractJson s with
  | none =>
    constructor
    · intro _
      exact Or.inl ((extractJson_eq_none_iff s).mp hx)
    · intro _
      rfl
  | some m =>
    dsimp only
    constructor
    · intro hp
      exact Or.inr ⟨m, rfl, hp⟩
    · rintro (hnb | ⟨m', hm', hp⟩)
      · rw [(extractJson_eq_none_iff s).mpr hnb] at hx
        exact Option.noConfusion hx
      · injection hm' with h'
        rw [h']
        exact hp

/-- Witness for C3 (amended): the failure characterization instantiated
at a concrete garbled reply (inner object valid, greedy region not). -/
theorem c3_amended_witness :
    codeParse (("\x7b\"a\":1\x7d x \x7d").toList) = none ↔
      (¬ HasBracePair (("\x7b\"a\":1\x7d x \x7d").toList) ∨
       ∃ m, extractJson (("\x7b\"a\":1\x7d x \x7d").toList) = some m ∧ jsonParse m = none) :=
  c3_amended.1 (("\x7b\"a\":1\x7d x \x7d").toList)

/-- Counterexample to C4: with the service uninitialized,
`parseVoiceToTask` does fail, but the internal 503 service-unavailable
error is swallowed by the `catch` block and the surfaced error is the 500
processing-failure one. -/
theorem c4_counterexample :
    parseVoiceToTask ⟨false, RemoteRes.reply none, fun _ => false⟩ (("buy milk").toList) =
      .error voiceProcessingErr ∧
    voiceProcessingErr.statusCode = 500 ∧
    serviceUnavailableErr.statusCode = 503 := by
  exact ⟨rfl, rfl, rfl⟩

/-- C4 (amended): when the service is uninitialized, `parseVoiceToTask`
fails with the processing-failure error (the 503 being re-wrapped as 500)
and never returns a task object; it is the only public operation that
surfaces a user-visible failure — the other three always fulfil. -/
theorem c4_amended (env : VoiceEnv) (transcription : List Char)
    (h : env.isInitialized = false) :
    parseVoiceToTask env transcription = .error voiceProcessingErr ∧
    (∀ (aenv : AnalyzeEnv) (t d : List Char),
      ∃ a evs, analyzeTask aenv t d = (Except.ok a, evs)) ∧
    (∀ (senv : SuggestEnv) (u c : List Char) (lim : ℕ),
      ∃ s evs, generateTaskSuggestions senv u c lim = (Except.ok s, evs)) ∧
    (∀ (ienv : InsightEnv) (ud : JsVal),
      ∃ i, generateProductivityInsights ienv ud = Except.ok i) := by
  refine ⟨?_, analyzeTask_isOk, generateTaskSuggestions_isOk, generateProductivityInsights_isOk⟩
  unfold parseVoiceToTask parseVoiceToTaskRaw
  rw [h]
  rfl

/-- Witness for C4 (amended): a concrete uninitialized call surfaces the
500 processing-failure error. -/
theorem c4_amended_witness :
    parseVoiceToTask ⟨false, RemoteRes.err, fun _ => false⟩ (("call mom").toList) =
      .error voiceProcessingErr :=
  (c4_amended ⟨false, RemoteRes.err, fun _ => false⟩ (("call mom").toList) rfl).1

/-- Counterexample to C5: with bounds that do not have one decimal place,
the one-decimal rounding can leave the declared range — at
`v = 0.51, min = 0.51, max = 1, default = 0.7` the function returns
`0.5`, which is below `min` and is not the default. -/
theorem c5_counterexample :
    ¬ ((51 / 100 ≤ validateRange (.num (51 / 100)) (51 / 100) 1 (7 / 10) ∧
        validateRange (.num (51 / 100)) (51 / 100) 1 (7 / 10) ≤ 1) ∨
       validateRange (.num (51 / 100)) (51 / 100) 1 (7 / 10) = 7 / 10) := by
  with_unfolding_all decide

/-- C5 (amended): whenever ten times `min` and ten times `max` are
integers — true at every call site of the source — `validateRange`
returns a value in `[min, max]` or exactly the default: it coerces to a
number, substitutes the default on `NaN` or out-of-range, and otherwise
rounds to one decimal place, which then stays inside the range. -/
theorem c5_amended (v : JsVal) (mi ma df : ℚ) (hmi : oneDecimal mi) (hma : oneDecimal ma) :
    (mi ≤ validateRange v mi ma df ∧ validateRange v mi ma df ≤ ma) ∨
      validateRange v mi ma df = df :=
  validateRange_mem_or_default v mi ma df hmi hma

/-- Witness for C5 (amended): the call-site parameters `(1, 10, 5)` on a
string input that coerces to `3.7`. -/
theorem c5_amended_witness :
    (1 ≤ validateRange (.str (("3.7").toList)) 1 10 5 ∧
      validateRange (.str (("3.7").toList)) 1 10 5 ≤ 10) ∨
    validateRange (.str (("3.7").toList)) 1 10 5 = 5 :=
  c5_amended (.str (("3.7").toList)) 1 10 5 ⟨10, by norm_num⟩ ⟨100, by norm_num⟩

/-- Counterexample to C6: with a default that does not have one decimal
place, re-application rounds the substituted default — at
`v = NaN, min = 0, max = 1, default = 0.55` the first application gives
`0.55` and the second `0.6`. -/
theorem c6_counterexample :
    validateRange (.num (validateRange .undefined 0 1 (11 / 20))) 0 1 (11 / 20) ≠
      validateRange .undefined 0 1 (11 / 20) := by
  with_unfolding_all decide

/-- C6 (amended): whenever ten times `min`, `max` and `default` are
integers — true at every call site of the source — `validateRange` is
idempotent under re-application. -/
theorem c6_amended (v : JsVal) (mi ma df : ℚ)
    (hmi : oneDecimal mi) (hma : oneDecimal ma) (hdf : oneDecimal df) :
    validateRange (.num (validateRange v mi ma df)) mi ma df =
      validateRange v mi ma df := by
  have hr := oneDecimal_validateRange v mi ma df hdf
  rw [validateRange_num_eval _ _ _ _ hr]
  rcases validateRange_mem_or_default v mi ma df hmi hma with ⟨h1, h2⟩ | he
  · rw [if_neg (by push_neg; exact ⟨h1, h2⟩)]
  · rw [he]
    split <;> rfl

/-- Witness for C6 (amended): the call-site parameters `(0.5, 40, 2)` on
an in-range number. -/
theorem c6_amended_witness :
    validateRange (.num (validateRange (.num 3) (1 / 2) 40 2)) (1 / 2) 40 2 =
      validateRange (.num 3) (1 / 2) 40 2 :=
  c6_amended (.num 3) (1 / 2) 40 2 ⟨5, by norm_num⟩ ⟨400, by norm_num⟩ ⟨20, by norm_num⟩

/-- C7: the heuristic fallback is the pure function of the two keyword
presence flags given by the decision table of the spec — priority
`8 / 6 / 4`, estimated hours `6` exactly when complex, complexity `high`
exactly when complex, deadline urgency `9` exactly when urgent, neutral
sentiment, confidence `70`, no subtasks, flexible time slot. -/
theorem c7_fallback_decision_table (title description : List Char) :
    ((fallbackAnalysis title description).priority =
      if isUrgent (fallbackText title description) then 8
      else if isComplex (fallbackText title description) then 6 else 4) ∧
    ((fallbackAnalysis title description).estimatedHours =
      if isComplex (fallbackText title description) then 6 else 2) ∧
    ((fallbackAnalysis title description).complexity =
      if isComplex (fallbackText title description) then .high else .medium) ∧
    ((fallbackAnalysis title description).deadlineUrgency =
      if isUrgent (fallbackText title description) then 9 else 5) ∧
    (fallbackAnalysis title description).sentiment = .neutral ∧
    (fallbackAnalysis title description).confidenceScore = 70 ∧
    (fallbackAnalysis title description).suggestedSubtasks = [] ∧
    (fallbackAnalysis title description).optimalTimeSlot = .flexible := by
  exact ⟨rfl, rfl, rfl, rfl, rfl, rfl, rfl, rfl⟩

/-- C8: the sentiment field is computed locally.  Two runs that differ
only in the remote reply text, both replies parseable, produce identical
sentiment; and on the successful remote path the sentiment is the sign
classification of the local score of the description. -/
theorem c8_sentiment_locality (init : Bool) (ca : CacheA) (wfl : Bool)
    (sf : List Char → ℚ) (content1 content2 title description : List Char)
    (a1 a2 : TaskAnalysis) (evs1 evs2 : List Ev)
    (hne1 : content1 ≠ []) (hne2 : content2 ≠ [])
    (hp1 : ∃ m j, extractJson content1 = some m ∧ jsonParse m = some j)
    (hp2 : ∃ m j, extractJson content2 = some m ∧ jsonParse m = some j)
    (ha1 : analyzeTask ⟨init, ca, .reply (some content1), wfl, sf⟩ title description =
      (Except.ok a1, evs1))
    (ha2 : analyzeTask ⟨init, ca, .reply (some content2), wfl, sf⟩ title description =
      (Except.ok a2, evs2)) :
    a1.sentiment = a2.sentiment ∧
    (init = true → ca = CacheA.miss → wfl = false →
      a1.sentiment = classifySentiment (sf description)) := by
  obtain ⟨m1, j1, hm1, hj1⟩ := hp1
  obtain ⟨m2, j2, hm2, hj2⟩ := hp2
  cases init with
  | false =>
    have e1 : analyzeTask ⟨false, ca, .reply (some content1), wfl, sf⟩ title description =
        (.ok (fallbackAnalysis title description), []) := rfl
    have e2 : analyzeTask ⟨false, ca, .reply (some content2), wfl, sf⟩ title description =
        (.ok (fallbackAnalysis title description), []) := rfl
    rw [e1] at ha1
    rw [e2] at ha2
    simp only [Prod.mk.injEq, Except.ok.injEq] at ha1 ha2
    rw [← ha1.1, ← ha2.1]
    exact ⟨rfl, fun h => by simp at h⟩
  | true =>
    cases ca with
    | err =>
      have e1 : analyzeTask ⟨true, CacheA.err, .reply (some content1), wfl, sf⟩ title description =
          (.ok (fallbackAnalysis title description), []) :=
        analyzeTask_err _ _ _ .generic [] rfl
      have e2 : analyzeTask ⟨true, CacheA.err, .reply (some content2), wfl, sf⟩ title description =
          (.ok (fallbackAnalysis title description), []) :=
        analyzeTask_err _ _ _ .generic [] rfl
      rw [e1] at ha1
      rw [e2] at ha2
      simp only [Prod.mk.injEq, Except.ok.injEq] at ha1 ha2
      rw [← ha1.1, ← ha2.1]
      exact ⟨rfl, fun _ h => by simp at h⟩
    | corrupt =>
      have e1 : analyzeTask ⟨true, CacheA.corrupt, .reply (some content1), wfl, sf⟩
          title description = (.ok (fallbackAnalysis title description), []) :=
        analyzeTask_err _ _ _ .generic [] rfl
      have e2 : analyzeTask ⟨true, CacheA.corrupt, .reply (some content2), wfl, sf⟩
          title description = (.ok (fallbackAnalysis title description), []) :=
        analyzeTask_err _ _ _ .generic [] rfl
      rw [e1] at ha1
      rw [e2] at ha2
      simp only [Prod.mk.injEq, Except.ok.injEq] at ha1 ha2
      rw [← ha1.1, ← ha2.1]
      exact ⟨rfl, fun _ h => by simp at h⟩
    | hit v =>
      have e1 : analyzeTask ⟨true, CacheA.hit v, .reply (some content1), wfl, sf⟩
          title description = (.ok v, []) := rfl
      have e2 : analyzeTask ⟨true, CacheA.hit v, .reply (some content2), wfl, sf⟩
          title description = (.ok v, []) := rfl
      rw [e1] at ha1
      rw [e2] at ha2
      simp only [Prod.mk.injEq, Except.ok.injEq] at ha1 ha2
      rw [← ha1.1, ← ha2.1]
      exact ⟨rfl, fun _ h => by simp at h⟩
    | miss =>
      have r1 := analyzeTaskRaw_miss_parse ⟨true, CacheA.miss, .reply (some content1), wfl, sf⟩
        title description content1 m1 j1 rfl rfl rfl hne1 hm1 hj1
      have r2 := analyzeTaskRaw_miss_parse ⟨true, CacheA.miss, .reply (some content2), wfl, sf⟩
        title description content2 m2 j2 rfl rfl rfl hne2 hm2 hj2
      cases wfl with
      | true =>
        rw [if_pos rfl] at r1 r2
        rw [analyzeTask_err _ _ _ .generic _ r1] at ha1
        rw [analyzeTask_err _ _ _ .generic _ r2] at ha2
        simp only [Prod.mk.injEq, Except.ok.injEq] at ha1 ha2
        rw [← ha1.1, ← ha2.1]
        exact ⟨rfl, fun _ _ h => by simp at h⟩
      | false =>
        rw [if_neg (by simp)] at r1 r2
        rw [analyzeTask_of_raw_ok _ _ _ _ _ r1] at ha1
        rw [analyzeTask_of_raw_ok _ _ _ _ _ r2] at ha2
        simp only [Prod.mk.injEq, Except.ok.injEq] at ha1 ha2
        rw [← ha1.1, ← ha2.1]
        exact ⟨rfl, fun _ _ _ => rfl⟩

/-- Witness for C8: two concrete runs whose replies are the two distinct
parseable JSON objects, on a positive-score sentiment collaborator, agree
on a positive sentiment. -/
theorem c8_sentiment_locality_witness :
    (buildFinal ⟨true, CacheA.miss, RemoteRes.reply (some (("\x7b\x7d").toList)), false,
        fun _ => 1⟩ (.obj []) (("d").toList)).sentiment = classifySentiment 1 := by
  have r1 := analyzeTaskRaw_miss_parse
    ⟨true, CacheA.miss, RemoteRes.reply (some (("\x7b\x7d").toList)), false, fun _ => 1⟩
    (("t").toList) (("d").toList) (("\x7b\x7d").toList) (("\x7b\x7d").toList) (.obj [])
    rfl rfl rfl (by simp) rfl rfl
  have r2 := analyzeTaskRaw_miss_parse
    ⟨true, CacheA.miss, RemoteRes.reply (some (("\x7b\"a\":2\x7d").toList)), false, fun _ => 1⟩
    (("t").toList) (("d").toList) (("\x7b\"a\":2\x7d").toList) (("\x7b\"a\":2\x7d").toList)
    (.obj [(['a'], .num 2)]) rfl rfl rfl (by simp) rfl rfl
  rw [if_neg (by simp)] at r1
  rw [if_neg (by simp)] at r2
  have h := c8_sentiment_locality true CacheA.miss false (fun _ => 1)
    (("\x7b\x7d").toList) (("\x7b\"a\":2\x7d").toList) (("t").toList) (("d").toList)
    _ _ _ _ (by simp) (by simp)
    ⟨(("\x7b\x7d").toList), .obj [], rfl, rfl⟩
    ⟨(("\x7b\"a\":2\x7d").toList), .obj [(['a'], .num 2)], rfl, rfl⟩
    (analyzeTask_of_raw_ok _ _ _ _ _ r1) (analyzeTask_of_raw_ok _ _ _ _ _ r2)
  exact h.2 rfl rfl rfl

/-- C9: an initialized service whose cache get hits short-circuits — the
deserialized cached value is returned verbatim for every stored value
(no field validation is applied to it), and the event trace is empty: no
prompt construction, no remote inference call, no cache write. -/
theorem c9_cache_hit_short_circuit (env : AnalyzeEnv) (title description : List Char)
    (v : TaskAnalysis) (hinit : env.isInitialized = true)
    (hhit : env.cache = CacheA.hit v) :
    analyzeTask env title description = (Except.ok v, []) := by
  apply analyzeTask_of_raw_ok
  unfold analyzeTaskRaw
  simp [hinit, hhit]

/-- Witness for C9: a cached value with every field out of range is
returned exactly as stored, with no side effects. -/
theorem c9_cache_hit_short_circuit_witness :
    analyzeTask ⟨true,
        CacheA.hit ⟨999, -5, .low, .positive, [], 0, [], .morning, 12345⟩,
        RemoteRes.reply none, false, fun _ => 0⟩ (("t").toList) (("d").toList) =
      (Except.ok ⟨999, -5, .low, .positive, [], 0, [], .morning, 12345⟩, []) :=
  c9_cache_hit_short_circuit _ (("t").toList) (("d").toList)
    ⟨999, -5, .low, .positive, [], 0, [], .morning, 12345⟩ rfl rfl

/-- Counterexample to C10's final clause: on the cache-miss path with a
reply that parses to a non-array, the call returns the five default
suggestions even when `limit = 2`. -/
theorem c10_counterexample :
    generateTaskSuggestions ⟨true, CacheS.miss, RemoteRes.reply (some (("5").toList)), false⟩
        (("u").toList) (("c").toList) 2 =
      (Except.ok defaultSuggestionsJs, [SEv.remoteCall, SEv.cacheWrite (.num 5)]) ∧
    2 < jsLen defaultSuggestionsJs := by
  exact ⟨rfl, by decide⟩

/-- C10 (amended): the cache write stores the parsed reply before the
array check and the truncation to `limit`; a later hit returns the cached
value as-is, so suitable cache contents yield more than `limit` elements;
on the miss path an array reply is truncated to at most `limit` elements,
but a non-array reply yields the five default suggestions regardless of
`limit`. -/
theorem c10_amended :
    (∀ (env : SuggestEnv) (u c : List Char) (lim : ℕ) (v : JsVal),
      env.isInitialized = true → env.cache = CacheS.hit v →
      generateTaskSuggestions env u c lim = (Except.ok v, [])) ∧
    (∀ (env : SuggestEnv) (u c content : List Char) (lim : ℕ) (j : JsVal),
      env.isInitialized = true → env.cache = CacheS.miss →
      env.remote = RemoteRes.reply (some content) → env.writeFails = false →
      jsonParse (arrContent (some content)) = some j →
      generateTaskSuggestions env u c lim =
        (match j with
         | .arr l => (Except.ok (JsVal.arr (l.take lim)), [SEv.remoteCall, SEv.cacheWrite j])
         | _ => (Except.ok defaultSuggestionsJs, [SEv.remoteCall, SEv.cacheWrite j]))) ∧
    (∀ (l : List JsVal) (lim : ℕ), jsLen (.arr (l.take lim)) ≤ lim) ∧
    jsLen defaultSuggestionsJs = 5 := by
  refine ⟨?_, ?_, ?_, rfl⟩
  · intro env u c lim v h1 h2
    unfold generateTaskSuggestions generateTaskSuggestionsRaw
    simp [h1, h2]
  · intro env u c content lim j h1 h2 h3 h4 h5
    cases j <;>
      simp [generateTaskSuggestions, generateTaskSuggestionsRaw, h1, h2, h3, h4, h5]
  · intro l lim
    simp [jsLen, List.length_take]

/-- Witness for C10 (amended): a cached seven-element array is returned
as-is by a call with `limit = 5`. -/
theorem c10_amended_witness :
    generateTaskSuggestions ⟨true,
        CacheS.hit (.arr [.num 1, .num 2, .num 3, .num 4, .num 5, .num 6, .num 7]),
        RemoteRes.reply none, false⟩ (("u").toList) (("c").toList) 5 =
      (Except.ok (.arr [.num 1, .num 2, .num 3, .num 4, .num 5, .num 6, .num 7]), []) :=
  c10_amended.1 _ (("u").toList) (("c").toList) 5
    (.arr [.num 1, .num 2, .num 3, .num 4, .num 5, .num 6, .num 7]) rfl rfl
